import Mathlib

/-!
Verification of the Mini_Cloud file-catalog service.

The Python source (`Project/file_storage.py`, `Project/firebase_config.py`)
is embedded shallowly: the two backing stores (Firebase Storage blobs and
the Firestore document collection) are modelled as explicit state threaded
through each operation, with boolean fault flags injecting the backend
failures that the Python code catches as exceptions.  Every backend call
appends an event to a log so that "zero store calls" and "blob write before
metadata insert" are stated about the trace.
-/

namespace MiniCloud

/-- Maximum file size in megabytes (`MAX_FILE_SIZE_MB = 10`). -/
def MAX_FILE_SIZE_MB : Nat := 10

/-- Maximum file size in bytes (`MAX_FILE_SIZE_BYTES = MAX_FILE_SIZE_MB * 1024 * 1024`). -/
def MAX_FILE_SIZE_BYTES : Nat := MAX_FILE_SIZE_MB * 1024 * 1024

/-- Round a rational to the nearest integer, ties to even — the behaviour
of Python 3 `round` on exact values: take the floor and compare the
fractional part with one half. -/
def roundHalfEven (q : ℚ) : ℤ :=
  let f := ⌊q⌋
  let r := q - (f : ℚ)
  if r < 1/2 then f
  else if 1/2 < r then f + 1
  else if f % 2 = 0 then f else f + 1

/-- Python `round(q, 2)`: round to two decimal places, ties to even. -/
def round2 (q : ℚ) : ℚ := (roundHalfEven (q * 100) : ℚ) / 100

/-- Index of the last occurrence of a character in a list
(Python `str.rfind`), or `none`. -/
def rfindIdx (c : Char) : List Char → Option Nat
  | [] => none
  | x :: xs =>
    match rfindIdx c xs with
    | some i => some (i + 1)
    | none => if x = c then some 0 else none

/-- Model of `os.path.splitext` for POSIX paths: split off the extension at the last
dot of the last path component, except that leading dots of the component
never start an extension (so `".bashrc"` has no extension). -/
def splitext (p : String) : String × String :=
  let l := p.toList
  let sepIdx : ℤ := match rfindIdx '/' l with | some i => (i : ℤ) | none => -1
  let dotIdx : ℤ := match rfindIdx '.' l with | some i => (i : ℤ) | none => -1
  if sepIdx < dotIdx then
    let fnameStart := (sepIdx + 1).toNat
    let between := (l.drop fnameStart).take (dotIdx.toNat - fnameStart)
    if between.all (fun c => c = '.') then (p, "")
    else (String.mk (l.take dotIdx.toNat), String.mk (l.drop dotIdx.toNat))
  else (p, "")

/-- The Streamlit `UploadedFile` object handed to `upload_file`: a filename,
a `size` attribute reported by the framework, the content bytes returned by
`getvalue()`, and the declared mime `type`.  `size` and `content` are
separate fields because the Python code reads them separately. -/
structure UploadedFile where
  name : String
  size : Nat
  content : List Nat
  type : Option String
deriving DecidableEq, Repr

/-- One call made to a backing store client, recorded in the trace. -/
inductive Event where
  | blobPut (key : String)
  | makePublic (key : String)
  | publicUrl (key : String)
  | blobDelete (key : String)
  | catalogInsert (id : Nat)
  | catalogDelete (id : Nat)
  | catalogList
deriving DecidableEq, Repr

/-- A document of the Firestore `files` collection: the metadata dict built
by `upload_file`.  `size_bytes` is optional because the collection is
schema-less and `get_storage_stats` reads it with `f.get('size_bytes', 0)`. -/
structure StoredRecord where
  original_name : String
  stored_name : String
  size_bytes : Option Nat
  size_mb : ℚ
  mime_type : Option String
  storage_path : String
  download_url : String
  uploaded_at : Nat
  file_extension : String
deriving DecidableEq, Repr

/-- State of the two backing stores, with fault-injection flags for each
operation that the Python code can see fail as an exception, plus the call
trace.  `docs` keeps catalog documents in insertion order; the store-level
descending sort happens in the list operation.  `urlPrefix` models how the
blob store derives `public_url` from the blob key. -/
structure Backend where
  blobs : List (String × List Nat)
  docs : List (Nat × StoredRecord)
  nextId : Nat
  urlPrefix : String
  log : List Event
  blobPutFails : Bool
  makePublicFails : Bool
  publicUrlFails : Bool
  insertFails : Bool
  blobDeleteFails : Bool
  catalogDeleteFails : Bool
  listFails : Bool
deriving DecidableEq, Repr

/-- Model of `blob.upload_from_string(content, content_type=...)`: records the call,
then either fails or stores the bytes under the key. -/
def blobPutOp (key : String) (content : List Nat) (b : Backend) : Backend × Bool :=
  let b1 := { b with log := b.log ++ [Event.blobPut key] }
  if b.blobPutFails then (b1, false)
  else ({ b1 with blobs := b1.blobs ++ [(key, content)] }, true)

/-- Model of `blob.make_public()`. -/
def makePublicOp (key : String) (b : Backend) : Backend × Bool :=
  let b1 := { b with log := b.log ++ [Event.makePublic key] }
  if b.makePublicFails then (b1, false) else (b1, true)

/-- Model of `blob.public_url`: the public download URL for the key. -/
def publicUrlOp (key : String) (b : Backend) : Backend × Option String :=
  let b1 := { b with log := b.log ++ [Event.publicUrl key] }
  if b.publicUrlFails then (b1, none) else (b1, some (b1.urlPrefix ++ key))

/-- Model of `db.collection('files').document(); doc_ref.set(metadata)`: the store
assigns the fresh id and, unless it fails, appends the document. -/
def insertOp (md : StoredRecord) (b : Backend) : Backend × Option Nat :=
  let b1 := { b with log := b.log ++ [Event.catalogInsert b.nextId] }
  if b.insertFails then (b1, none)
  else ({ b1 with docs := b1.docs ++ [(b.nextId, md)], nextId := b.nextId + 1 },
        some b.nextId)

/-- Model of `blob.delete()`: fails on transport failure or when no blob exists at
the key (Google Cloud Storage raises NotFound); otherwise removes it. -/
def blobDeleteOp (key : String) (b : Backend) : Backend × Bool :=
  let b1 := { b with log := b.log ++ [Event.blobDelete key] }
  if b.blobDeleteFails || (b.blobs.lookup key).isNone then (b1, false)
  else ({ b1 with blobs := b1.blobs.filter (fun p => !(p.1 == key)) }, true)

/-- Model of `db.collection('files').document(doc_id).delete()`: deleting an absent
document succeeds in Firestore, so only a transport fault fails. -/
def catalogDeleteOp (id : Nat) (b : Backend) : Backend × Bool :=
  let b1 := { b with log := b.log ++ [Event.catalogDelete id] }
  if b.catalogDeleteFails then (b1, false)
  else ({ b1 with docs := b1.docs.filter (fun p => !(p.1 == id)) }, true)

/-- Result dict of `upload_file`: either `success: True` with the metadata
and the Firestore document id, or `success: False` with an error message. -/
inductive UploadResult where
  | ok (metadata : StoredRecord) (doc_id : Nat)
  | err (msg : String)
deriving DecidableEq, Repr

/-- The metadata of a successful result, `none` on failure. -/
def UploadResult.metadata? : UploadResult → Option StoredRecord
  | .ok md _ => some md
  | .err _ => none

/-- Whether the result dict has `success: True`. -/
def UploadResult.success : UploadResult → Bool
  | .ok _ _ => true
  | .err _ => false

/-- The message of the size-gate rejection:
`f'File size exceeds {MAX_FILE_SIZE_MB} MB limit'`. -/
def sizeErrorMsg : String := "File size exceeds 10 MB limit"

/-- The metadata dict assembled by `upload_file` for a file, given the
formatted timestamp string, the `uploaded_at` clock value and the public
URL returned by the blob store. -/
def mkMetadata (uf : UploadedFile) (ts : String) (now : Nat) (url : String) :
    StoredRecord :=
  { original_name := uf.name
    stored_name := ts ++ "_" ++ uf.name
    size_bytes := some uf.size
    size_mb := round2 ((uf.size : ℚ) / (1024 * 1024))
    mime_type := uf.type
    storage_path := "uploads/" ++ (ts ++ "_" ++ uf.name)
    download_url := url
    uploaded_at := now
    file_extension := (splitext uf.name).2 }

/-- Model of `FileStorageManager.upload_file`.  `ts` is the strftime-formatted
timestamp of the first `datetime.now()` call, `now` the clock value of the
second one (stored as `uploaded_at`).  Any backend failure aborts with an
error result, as the Python `try`/`except` does. -/
def upload_file (uf : UploadedFile) (ts : String) (now : Nat) (b : Backend) :
    Backend × UploadResult :=
  let file_size := uf.size
  if MAX_FILE_SIZE_BYTES < file_size then
    (b, .err sizeErrorMsg)
  else
    let path := "uploads/" ++ (ts ++ "_" ++ uf.name)
    match blobPutOp path uf.content b with
    | (b1, false) => (b1, .err "blob upload failed")
    | (b1, true) =>
      match makePublicOp path b1 with
      | (b2, false) => (b2, .err "make_public failed")
      | (b2, true) =>
        match publicUrlOp path b2 with
        | (b3, none) => (b3, .err "public_url failed")
        | (b3, some url) =>
          match insertOp (mkMetadata uf ts now url) b3 with
          | (b4, none) => (b4, .err "firestore insert failed")
          | (b4, some id) => (b4, .ok (mkMetadata uf ts now url) id)

/-- Insert a document into a list kept in descending `uploaded_at` order. -/
def insertDesc (d : Nat × StoredRecord) :
    List (Nat × StoredRecord) → List (Nat × StoredRecord)
  | [] => [d]
  | x :: xs =>
    if d.2.uploaded_at ≤ x.2.uploaded_at then x :: insertDesc d xs
    else d :: x :: xs

/-- The store-level `order_by('uploaded_at', DESCENDING)` sort, modelled as
a stable insertion sort over the documents in insertion order. -/
def sortDesc : List (Nat × StoredRecord) → List (Nat × StoredRecord)
  | [] => []
  | x :: xs => insertDesc x (sortDesc xs)

/-- Model of `FileStorageManager.get_all_files`: streams the collection ordered by
`uploaded_at` descending, attaching each document's id; on any backend
error it returns the empty list. -/
def get_all_files (b : Backend) : Backend × List (Nat × StoredRecord) :=
  let b1 := { b with log := b.log ++ [Event.catalogList] }
  if b.listFails then (b1, []) else (b1, sortDesc b.docs)

/-- Result dict of `delete_file`. -/
inductive DeleteResult where
  | ok (message : String)
  | err (msg : String)
deriving DecidableEq, Repr

/-- Whether the deletion result dict has `success: True`. -/
def DeleteResult.success : DeleteResult → Bool
  | .ok _ => true
  | .err _ => false

/-- Model of `FileStorageManager.delete_file`: delete the blob first; if that raises,
the `except` returns failure before the Firestore delete runs. -/
def delete_file (doc_id : Nat) (storage_path : String) (b : Backend) :
    Backend × DeleteResult :=
  match blobDeleteOp storage_path b with
  | (b1, false) => (b1, .err "blob delete failed")
  | (b1, true) =>
    match catalogDeleteOp doc_id b1 with
    | (b2, false) => (b2, .err "firestore delete failed")
    | (b2, true) => (b2, .ok "File deleted successfully")

/-- The stats dict of `get_storage_stats`. -/
structure Stats where
  total_files : Nat
  total_size_bytes : Nat
  total_size_mb : ℚ
deriving DecidableEq, Repr

/-- Model of `FileStorageManager.get_storage_stats`: folds `get_all_files`. -/
def get_storage_stats (b : Backend) : Backend × Stats :=
  let r := get_all_files b
  let files := r.2
  let total_files := files.length
  let total_size_bytes := (files.map (fun f => f.2.size_bytes.getD 0)).sum
  (r.1, { total_files := total_files
          total_size_bytes := total_size_bytes
          total_size_mb := round2 ((total_size_bytes : ℚ) / (1024 * 1024)) })

/-- The process environment read by `initialize_firebase`: the two
`os.getenv` values (`none` when the variable is absent), plus fault flags
for the two SDK calls that may raise. -/
structure FbEnv where
  cred_path : Option String
  storage_bucket : Option String
  certificateFails : Bool
  initAppFails : Bool
deriving DecidableEq, Repr

/-- The module state of `firebase_config`: the `_initialized` flag and the
number of `firebase_admin.initialize_app` calls performed. -/
structure FbState where
  initialized : Bool
  appInits : Nat
deriving DecidableEq, Repr

/-- Result of a call to `initialize_firebase`: a normal return or a raised
exception carrying its message. -/
inductive InitResult where
  | ok
  | raised (msg : String)
deriving DecidableEq, Repr

/-- The `ValueError` message for missing configuration. -/
def missingConfigMsg : String :=
  "Missing Firebase configuration. Please set FIREBASE_CREDENTIALS_PATH " ++
  "and FIREBASE_STORAGE_BUCKET in your .env file"

/-- Python truthiness of an optional string: `not x` holds for an absent
variable and for the empty string. -/
def falsyEnv : Option String → Bool
  | none => true
  | some s => s == ""

/-- Model of `initialize_firebase`: returns immediately when already initialized;
raises `ValueError` when either environment value is falsy; otherwise runs
the two SDK calls (each may raise) and only then sets `_initialized`. -/
def initialize_firebase (env : FbEnv) (st : FbState) : FbState × InitResult :=
  if st.initialized then (st, .ok)
  else if falsyEnv env.cred_path || falsyEnv env.storage_bucket then
    (st, .raised missingConfigMsg)
  else if env.certificateFails then (st, .raised "certificate error")
  else if env.initAppFails then (st, .raised "initialize_app error")
  else ({ initialized := true, appInits := st.appInits + 1 }, .ok)

/-! ### Helper lemmas -/

theorem mem_insertDesc {d y : Nat × StoredRecord} {l : List (Nat × StoredRecord)} :
    y ∈ insertDesc d l ↔ y = d ∨ y ∈ l := by
  induction l with
  | nil => simp [insertDesc]
  | cons x xs ih =>
    simp only [insertDesc]
    split
    all_goals simp only [List.mem_cons, ih]
    all_goals tauto

theorem insertDesc_eq_append {d : Nat × StoredRecord} {l : List (Nat × StoredRecord)}
    (h : ∀ x ∈ l, d.2.uploaded_at ≤ x.2.uploaded_at) : insertDesc d l = l ++ [d] := by
  induction l with
  | nil => rfl
  | cons x xs ih =>
    simp only [insertDesc]
    rw [if_pos (h x (by simp)), ih (fun y hy => h y (by simp [hy]))]
    rfl

theorem mem_sortDesc {y : Nat × StoredRecord} {l : List (Nat × StoredRecord)} :
    y ∈ sortDesc l ↔ y ∈ l := by
  induction l with
  | nil => simp [sortDesc]
  | cons x xs ih =>
    simp only [sortDesc, mem_insertDesc, ih, List.mem_cons]

theorem sortDesc_eq_reverse {l : List (Nat × StoredRecord)}
    (h : l.Pairwise (fun a b => a.2.uploaded_at < b.2.uploaded_at)) :
    sortDesc l = l.reverse := by
  induction l with
  | nil => rfl
  | cons x xs ih =>
    rw [List.pairwise_cons] at h
    simp only [sortDesc]
    rw [ih h.2, insertDesc_eq_append, List.reverse_cons]
    intro y hy
    exact le_of_lt (h.1 y (by simpa using hy))

/-- Characterization of a fully successful `upload_file`: all four backend
steps succeed and the file passes the size gate. -/
theorem upload_file_ok (uf : UploadedFile) (ts : String) (now : Nat) (b : Backend)
    (h1 : b.blobPutFails = false) (h2 : b.makePublicFails = false)
    (h3 : b.publicUrlFails = false) (h4 : b.insertFails = false)
    (h5 : ¬ MAX_FILE_SIZE_BYTES < uf.size) :
    upload_file uf ts now b =
      ({ b with
          blobs := b.blobs ++ [("uploads/" ++ (ts ++ "_" ++ uf.name), uf.content)]
          docs := b.docs ++
            [(b.nextId, mkMetadata uf ts now
                (b.urlPrefix ++ ("uploads/" ++ (ts ++ "_" ++ uf.name))))]
          nextId := b.nextId + 1
          log := b.log ++
            [Event.blobPut ("uploads/" ++ (ts ++ "_" ++ uf.name)),
             Event.makePublic ("uploads/" ++ (ts ++ "_" ++ uf.name)),
             Event.publicUrl ("uploads/" ++ (ts ++ "_" ++ uf.name)),
             Event.catalogInsert b.nextId] },
       .ok (mkMetadata uf ts now
              (b.urlPrefix ++ ("uploads/" ++ (ts ++ "_" ++ uf.name)))) b.nextId) := by
  simp [upload_file, blobPutOp, makePublicOp, publicUrlOp, insertOp, h1, h2, h3, h4, h5]

/-- A failed `upload_file` leaves the document collection unchanged. -/
theorem upload_file_err_docs (uf : UploadedFile) (ts : String) (now : Nat) (b : Backend)
    (h : (upload_file uf ts now b).2.success = false) :
    (upload_file uf ts now b).1.docs = b.docs := by
  rcases Nat.lt_or_ge MAX_FILE_SIZE_BYTES uf.size with h5 | h5
  · simp [upload_file, h5]
  · have h5' : ¬ MAX_FILE_SIZE_BYTES < uf.size := Nat.not_lt.mpr h5
    unfold upload_file at h ⊢
    rw [if_neg h5'] at h ⊢
    cases h1 : b.blobPutFails <;> cases h2 : b.makePublicFails <;>
      cases h3 : b.publicUrlFails <;> cases h4 : b.insertFails <;>
      simp_all [blobPutOp, makePublicOp, publicUrlOp, insertOp, UploadResult.success]

/-- Absence of fault injection on the four backend steps of an upload. -/
def noUploadFaults (b : Backend) : Prop :=
  b.blobPutFails = false ∧ b.makePublicFails = false ∧
  b.publicUrlFails = false ∧ b.insertFails = false

instance (b : Backend) : Decidable (noUploadFaults b) := by
  unfold noUploadFaults
  infer_instance

/-- A sequence of uploads, each with its formatted timestamp string and its
`uploaded_at` clock value, folded over the backend state. -/
def uploadMany (us : List (UploadedFile × String × Nat)) (b : Backend) : Backend :=
  us.foldl (fun bb u => (upload_file u.1 u.2.1 u.2.2 bb).1) b

/-- The catalog document a successful upload creates, given the public-URL
prefix of the blob store and the id the catalog assigns. -/
def expectedDoc (pre : String) (u : UploadedFile × String × Nat) (i : Nat) :
    Nat × StoredRecord :=
  (i, mkMetadata u.1 u.2.1 u.2.2 (pre ++ ("uploads/" ++ (u.2.1 ++ "_" ++ u.1.name))))

/-- The catalog documents a sequence of successful uploads creates, with
consecutive ids starting at `i`. -/
def expectedDocs (pre : String) :
    List (UploadedFile × String × Nat) → Nat → List (Nat × StoredRecord)
  | [], _ => []
  | u :: rest, i => expectedDoc pre u i :: expectedDocs pre rest (i + 1)

theorem uploadMany_docs (us : List (UploadedFile × String × Nat)) (b : Backend)
    (hf : noUploadFaults b) (hs : ∀ u ∈ us, u.1.size ≤ MAX_FILE_SIZE_BYTES) :
    (uploadMany us b).docs = b.docs ++ expectedDocs b.urlPrefix us b.nextId ∧
    (uploadMany us b).listFails = b.listFails ∧ noUploadFaults (uploadMany us b) := by
  induction us generalizing b with
  | nil => simp [uploadMany, expectedDocs, hf]
  | cons u rest ih =>
    obtain ⟨hf1, hf2, hf3, hf4⟩ := hf
    have hsz : ¬ MAX_FILE_SIZE_BYTES < u.1.size :=
      Nat.not_lt.mpr (hs u (by simp))
    have hstep := upload_file_ok u.1 u.2.1 u.2.2 b hf1 hf2 hf3 hf4 hsz
    have hb1 : (upload_file u.1 u.2.1 u.2.2 b).1 =
        { b with
            blobs := b.blobs ++ [("uploads/" ++ (u.2.1 ++ "_" ++ u.1.name), u.1.content)]
            docs := b.docs ++
              [(b.nextId, mkMetadata u.1 u.2.1 u.2.2
                  (b.urlPrefix ++ ("uploads/" ++ (u.2.1 ++ "_" ++ u.1.name))))]
            nextId := b.nextId + 1
            log := b.log ++
              [Event.blobPut ("uploads/" ++ (u.2.1 ++ "_" ++ u.1.name)),
               Event.makePublic ("uploads/" ++ (u.2.1 ++ "_" ++ u.1.name)),
               Event.publicUrl ("uploads/" ++ (u.2.1 ++ "_" ++ u.1.name)),
               Event.catalogInsert b.nextId] } := by
      rw [hstep]
    have hrest := ih ((upload_file u.1 u.2.1 u.2.2 b).1)
      (by rw [hb1]; exact ⟨hf1, hf2, hf3, hf4⟩)
      (fun v hv => hs v (by simp [hv]))
    obtain ⟨hd, hl, hnf⟩ := hrest
    refine ⟨?_, ?_, ?_⟩
    · show (uploadMany (u :: rest) b).docs = _
      rw [show uploadMany (u :: rest) b = uploadMany rest ((upload_file u.1 u.2.1 u.2.2 b).1) from rfl]
      rw [hd, hb1]
      simp [expectedDocs, expectedDoc, List.append_assoc]
    · rw [show uploadMany (u :: rest) b = uploadMany rest ((upload_file u.1 u.2.1 u.2.2 b).1) from rfl]
      rw [hl, hb1]
    · rw [show uploadMany (u :: rest) b = uploadMany rest ((upload_file u.1 u.2.1 u.2.2 b).1) from rfl]
      exact hnf

/-- The `uploaded_at` values of the documents created by a sequence of
uploads are exactly the uploads' clock values, in order. -/
theorem expectedDocs_uploaded_at (pre : String)
    (us : List (UploadedFile × String × Nat)) (i : Nat) :
    (expectedDocs pre us i).map (fun d => d.2.uploaded_at) =
      us.map (fun u => u.2.2) := by
  induction us generalizing i with
  | nil => rfl
  | cons u rest ih => simp [expectedDocs, expectedDoc, mkMetadata, ih]

/-- Evaluation of `upload_file` when the blob write raises: only the blob-put call was
made and the operation aborts. -/
theorem upload_file_blobPutFail (uf : UploadedFile) (ts : String) (now : Nat)
    (b : Backend) (h5 : ¬ MAX_FILE_SIZE_BYTES < uf.size) (h1 : b.blobPutFails = true) :
    upload_file uf ts now b =
      ({ b with log := b.log ++ [Event.blobPut ("uploads/" ++ (ts ++ "_" ++ uf.name))] },
       .err "blob upload failed") := by
  simp [upload_file, blobPutOp, h1, h5]

/-- Evaluation of `upload_file` when `make_public` raises. -/
theorem upload_file_makePublicFail (uf : UploadedFile) (ts : String) (now : Nat)
    (b : Backend) (h5 : ¬ MAX_FILE_SIZE_BYTES < uf.size)
    (h1 : b.blobPutFails = false) (h2 : b.makePublicFails = true) :
    upload_file uf ts now b =
      ({ b with
          blobs := b.blobs ++ [("uploads/" ++ (ts ++ "_" ++ uf.name), uf.content)]
          log := b.log ++
            [Event.blobPut ("uploads/" ++ (ts ++ "_" ++ uf.name)),
             Event.makePublic ("uploads/" ++ (ts ++ "_" ++ uf.name))] },
       .err "make_public failed") := by
  simp [upload_file, blobPutOp, makePublicOp, h1, h2, h5]

/-- Evaluation of `upload_file` when the URL issuance raises. -/
theorem upload_file_publicUrlFail (uf : UploadedFile) (ts : String) (now : Nat)
    (b : Backend) (h5 : ¬ MAX_FILE_SIZE_BYTES < uf.size)
    (h1 : b.blobPutFails = false) (h2 : b.makePublicFails = false)
    (h3 : b.publicUrlFails = true) :
    upload_file uf ts now b =
      ({ b with
          blobs := b.blobs ++ [("uploads/" ++ (ts ++ "_" ++ uf.name), uf.content)]
          log := b.log ++
            [Event.blobPut ("uploads/" ++ (ts ++ "_" ++ uf.name)),
             Event.makePublic ("uploads/" ++ (ts ++ "_" ++ uf.name)),
             Event.publicUrl ("uploads/" ++ (ts ++ "_" ++ uf.name))] },
       .err "public_url failed") := by
  simp [upload_file, blobPutOp, makePublicOp, publicUrlOp, h1, h2, h3, h5]

/-- Evaluation of `upload_file` when the Firestore insert raises after a successful blob
write: the blob is stored but no document is added. -/
theorem upload_file_insertFail (uf : UploadedFile) (ts : String) (now : Nat)
    (b : Backend) (h5 : ¬ MAX_FILE_SIZE_BYTES < uf.size)
    (h1 : b.blobPutFails = false) (h2 : b.makePublicFails = false)
    (h3 : b.publicUrlFails = false) (h4 : b.insertFails = true) :
    upload_file uf ts now b =
      ({ b with
          blobs := b.blobs ++ [("uploads/" ++ (ts ++ "_" ++ uf.name), uf.content)]
          log := b.log ++
            [Event.blobPut ("uploads/" ++ (ts ++ "_" ++ uf.name)),
             Event.makePublic ("uploads/" ++ (ts ++ "_" ++ uf.name)),
             Event.publicUrl ("uploads/" ++ (ts ++ "_" ++ uf.name)),
             Event.catalogInsert b.nextId] },
       .err "firestore insert failed") := by
  simp [upload_file, blobPutOp, makePublicOp, publicUrlOp, insertOp, h1, h2, h3, h4, h5]

/-- Inversion for a successful `upload_file`: the returned metadata is
exactly the assembled record and the id is the one the store assigned. -/
theorem upload_ok_inv (uf : UploadedFile) (ts : String) (now : Nat) (b : Backend)
    (md : StoredRecord) (id : Nat) (h : (upload_file uf ts now b).2 = .ok md id) :
    md = mkMetadata uf ts now
        (b.urlPrefix ++ ("uploads/" ++ (ts ++ "_" ++ uf.name))) ∧
    id = b.nextId := by
  rcases Nat.lt_or_ge MAX_FILE_SIZE_BYTES uf.size with h5 | h5
  · simp [upload_file, h5] at h
  · have h5' : ¬ MAX_FILE_SIZE_BYTES < uf.size := Nat.not_lt.mpr h5
    cases h1 : b.blobPutFails
    · cases h2 : b.makePublicFails
      · cases h3 : b.publicUrlFails
        · cases h4 : b.insertFails
          · rw [upload_file_ok uf ts now b h1 h2 h3 h4 h5'] at h
            simpa [eq_comm] using h
          · rw [upload_file_insertFail uf ts now b h5' h1 h2 h3 h4] at h
            simp at h
        · rw [upload_file_publicUrlFail uf ts now b h5' h1 h2 h3] at h
          simp at h
      · rw [upload_file_makePublicFail uf ts now b h5' h1 h2] at h
        simp at h
    · rw [upload_file_blobPutFail uf ts now b h5' h1] at h
      simp at h

/-! ### Concrete fixtures -/

/-- A backend with empty stores and no fault injection. -/
def cleanBackend : Backend :=
  { blobs := [], docs := [], nextId := 0
    urlPrefix := "https://storage.googleapis.com/bucket/"
    log := [], blobPutFails := false, makePublicFails := false
    publicUrlFails := false, insertFails := false, blobDeleteFails := false
    catalogDeleteFails := false, listFails := false }

/-- The clean backend with a failing listing operation. -/
def failingListBackend : Backend := { cleanBackend with listFails := true }

/-- The five-byte `a.txt` upload of the spec's Scenario A. -/
def ufA : UploadedFile :=
  { name := "a.txt", size := 5, content := [1, 2, 3, 4, 5], type := some "text/plain" }

/-- The record a successful Scenario A upload returns. -/
def mdA : StoredRecord :=
  mkMetadata ufA "20240101_120000" 7
    (cleanBackend.urlPrefix ++ ("uploads/" ++ ("20240101_120000" ++ "_" ++ ufA.name)))

/-- An upload object whose `size` attribute (3) disagrees with the length
of its content (5 bytes). -/
def mismatchedFile : UploadedFile :=
  { name := "f.bin", size := 3, content := [9, 9, 9, 9, 9], type := none }

/-- An upload object whose content is one byte over the limit while its
`size` attribute claims 5 bytes. -/
def oversizedContentFile : UploadedFile :=
  { name := "big.bin", size := 5
    content := List.replicate (MAX_FILE_SIZE_BYTES + 1) 0, type := none }

/-! ### Claim theorems -/

/-- C1 counterexample: a successful upload of an object whose `size`
attribute is 3 while its content is 5 bytes long returns a record with
`size_bytes = 3`, not the byte length of the content written to the blob
store. -/
theorem upload_size_bytes_not_content_length :
    (upload_file mismatchedFile "20250101_000000" 1 cleanBackend).2.success = true ∧
    (upload_file mismatchedFile "20250101_000000" 1 cleanBackend).2.metadata?.map
      StoredRecord.size_bytes = some (some 3) ∧
    mismatchedFile.content.length = 5 ∧
    (some (some 3) : Option (Option Nat)) ≠ some (some 5) := by
  exact ⟨rfl, rfl, rfl, by decide⟩

/-- C1 (amended): for every successful `upload_file` call, `size_bytes`
equals the upload object's `size` attribute; it equals the length of the
content actually written only under the extra assumption that the attribute
is accurate. -/
theorem upload_size_bytes_eq_size_attr (uf : UploadedFile) (ts : String) (now : Nat)
    (b : Backend) (md : StoredRecord) (id : Nat)
    (h : (upload_file uf ts now b).2 = .ok md id) :
    md.size_bytes = some uf.size ∧
    (uf.size = uf.content.length → md.size_bytes = some uf.content.length) := by
  obtain ⟨hmd, -⟩ := upload_ok_inv uf ts now b md id h
  subst hmd
  exact ⟨rfl, fun hlen => by simp [mkMetadata, hlen]⟩

/-- C1 witness: Scenario A's upload recorded `size_bytes = 5`, the length
of its (accurate) content. -/
theorem upload_size_bytes_eq_size_attr_witness :
    mdA.size_bytes = some 5 ∧ mdA.size_bytes = some ufA.content.length := by
  have h := upload_size_bytes_eq_size_attr ufA "20240101_120000" 7 cleanBackend mdA 0 rfl
  exact ⟨h.1.trans rfl, h.2 rfl⟩

/-- C3 counterexample: an input whose content is `MAX_FILE_SIZE_BYTES + 1`
bytes long but whose `size` attribute claims 5 bytes is not rejected: the
upload succeeds and store calls are made. -/
theorem upload_oversized_content_not_rejected :
    MAX_FILE_SIZE_BYTES < oversizedContentFile.content.length ∧
    (upload_file oversizedContentFile "20250101_000000" 1 cleanBackend).2.success = true ∧
    (upload_file oversizedContentFile "20250101_000000" 1 cleanBackend).1.log ≠ [] := by
  refine ⟨?_, rfl, ?_⟩
  · simp [oversizedContentFile]
  · intro hc
    have he := upload_file_ok oversizedContentFile "20250101_000000" 1 cleanBackend
      rfl rfl rfl rfl (by decide)
    rw [he] at hc
    simp [cleanBackend] at hc

/-- C3 (amended): the size gate tests the upload object's `size` attribute,
not the content length: whenever that attribute exceeds
`MAX_FILE_SIZE_BYTES`, `upload_file` returns the FileTooLarge failure with
the backend completely untouched (zero store calls); content longer than
the limit is not rejected when the attribute is within it. -/
theorem upload_size_attr_gate (uf : UploadedFile) (ts : String) (now : Nat)
    (b : Backend) (h : MAX_FILE_SIZE_BYTES < uf.size) :
    upload_file uf ts now b = (b, .err sizeErrorMsg) := by
  simp [upload_file, h]

/-- C3 witness: an 11 MiB `size` attribute is rejected with no store calls. -/
theorem upload_size_attr_gate_witness :
    upload_file { name := "big.bin", size := 11 * 1024 * 1024, content := [], type := none }
        "20250101_000000" 1 cleanBackend = (cleanBackend, .err sizeErrorMsg) :=
  upload_size_attr_gate _ "20250101_000000" 1 cleanBackend (by decide)

/-- C10: the size gate is a strict inequality: a file whose `size` is
exactly `MAX_FILE_SIZE_BYTES` passes validation — the result is not the
FileTooLarge failure and the blob write is performed. -/
theorem upload_boundary_size_passes_gate (uf : UploadedFile) (ts : String) (now : Nat)
    (b : Backend) (h : uf.size = MAX_FILE_SIZE_BYTES) :
    (upload_file uf ts now b).2 ≠ .err sizeErrorMsg ∧
    ∃ rest, (upload_file uf ts now b).1.log =
      b.log ++ Event.blobPut ("uploads/" ++ (ts ++ "_" ++ uf.name)) :: rest := by
  have h5' : ¬ MAX_FILE_SIZE_BYTES < uf.size := by
    rw [h]
    exact lt_irrefl _
  cases h1 : b.blobPutFails
  · cases h2 : b.makePublicFails
    · cases h3 : b.publicUrlFails
      · cases h4 : b.insertFails
        · rw [upload_file_ok uf ts now b h1 h2 h3 h4 h5']
          exact ⟨by simp,
            [Event.makePublic ("uploads/" ++ (ts ++ "_" ++ uf.name)),
             Event.publicUrl ("uploads/" ++ (ts ++ "_" ++ uf.name)),
             Event.catalogInsert b.nextId], by simp⟩
        · rw [upload_file_insertFail uf ts now b h5' h1 h2 h3 h4]
          exact ⟨by simp only [ne_eq, UploadResult.err.injEq]; decide,
            [Event.makePublic ("uploads/" ++ (ts ++ "_" ++ uf.name)),
             Event.publicUrl ("uploads/" ++ (ts ++ "_" ++ uf.name)),
             Event.catalogInsert b.nextId], by simp⟩
      · rw [upload_file_publicUrlFail uf ts now b h5' h1 h2 h3]
        exact ⟨by simp only [ne_eq, UploadResult.err.injEq]; decide,
          [Event.makePublic ("uploads/" ++ (ts ++ "_" ++ uf.name)),
           Event.publicUrl ("uploads/" ++ (ts ++ "_" ++ uf.name))], by simp⟩
    · rw [upload_file_makePublicFail uf ts now b h5' h1 h2]
      exact ⟨by simp only [ne_eq, UploadResult.err.injEq]; decide,
        [Event.makePublic ("uploads/" ++ (ts ++ "_" ++ uf.name))], by simp⟩
  · rw [upload_file_blobPutFail uf ts now b h5' h1]
    exact ⟨by simp only [ne_eq, UploadResult.err.injEq]; decide, [], by simp⟩

/-- C10 witness: a file of exactly 10485760 bytes is uploaded, not
rejected. -/
theorem upload_boundary_size_passes_gate_witness :
    (upload_file { name := "edge.bin", size := 10485760, content := [], type := none }
        "20250101_000000" 1 cleanBackend).2 ≠ .err sizeErrorMsg ∧
    ∃ rest, (upload_file { name := "edge.bin", size := 10485760, content := [], type := none }
        "20250101_000000" 1 cleanBackend).1.log =
      cleanBackend.log ++
        Event.blobPut ("uploads/" ++ ("20250101_000000" ++ "_" ++ "edge.bin")) :: rest :=
  upload_boundary_size_passes_gate _ "20250101_000000" 1 cleanBackend (by decide)

/-- C2: the blob write strictly precedes the metadata insert (the trace of
a successful upload is put, make-public, URL, insert); any failure after
the size check returns a failure result with the document collection
unchanged; and in particular, when the metadata insert fails after a
successful blob write, the blob is stored but a subsequent listing contains
no record with its storage path (given none existed before). -/
theorem upload_blob_precedes_insert_clean_abort (uf : UploadedFile) (ts : String)
    (now : Nat) (b : Backend) :
    (∀ md id, (upload_file uf ts now b).2 = .ok md id →
      (upload_file uf ts now b).1.log = b.log ++
        [Event.blobPut ("uploads/" ++ (ts ++ "_" ++ uf.name)),
         Event.makePublic ("uploads/" ++ (ts ++ "_" ++ uf.name)),
         Event.publicUrl ("uploads/" ++ (ts ++ "_" ++ uf.name)),
         Event.catalogInsert id]) ∧
    ((upload_file uf ts now b).2.success = false →
      (upload_file uf ts now b).1.docs = b.docs) ∧
    (b.blobPutFails = false → b.makePublicFails = false → b.publicUrlFails = false →
     b.insertFails = true → b.listFails = false → uf.size ≤ MAX_FILE_SIZE_BYTES →
      (upload_file uf ts now b).2.success = false ∧
      ("uploads/" ++ (ts ++ "_" ++ uf.name), uf.content) ∈ (upload_file uf ts now b).1.blobs ∧
      ((∀ d ∈ b.docs, d.2.storage_path ≠ "uploads/" ++ (ts ++ "_" ++ uf.name)) →
        ∀ d ∈ (get_all_files (upload_file uf ts now b).1).2,
          d.2.storage_path ≠ "uploads/" ++ (ts ++ "_" ++ uf.name))) := by
  refine ⟨?_, upload_file_err_docs uf ts now b, ?_⟩
  · intro md id h
    obtain ⟨-, hid⟩ := upload_ok_inv uf ts now b md id h
    subst hid
    rcases Nat.lt_or_ge MAX_FILE_SIZE_BYTES uf.size with h5 | h5
    · rw [upload_size_attr_gate uf ts now b h5] at h
      simp at h
    · have h5' : ¬ MAX_FILE_SIZE_BYTES < uf.size := Nat.not_lt.mpr h5
      cases h1 : b.blobPutFails
      · cases h2 : b.makePublicFails
        · cases h3 : b.publicUrlFails
          · cases h4 : b.insertFails
            · rw [upload_file_ok uf ts now b h1 h2 h3 h4 h5']
            · rw [upload_file_insertFail uf ts now b h5' h1 h2 h3 h4] at h
              simp at h
          · rw [upload_file_publicUrlFail uf ts now b h5' h1 h2 h3] at h
            simp at h
        · rw [upload_file_makePublicFail uf ts now b h5' h1 h2] at h
          simp at h
      · rw [upload_file_blobPutFail uf ts now b h5' h1] at h
        simp at h
  · intro h1 h2 h3 h4 hl hsz
    have h5' : ¬ MAX_FILE_SIZE_BYTES < uf.size := Nat.not_lt.mpr hsz
    rw [upload_file_insertFail uf ts now b h5' h1 h2 h3 h4]
    refine ⟨rfl, by simp, ?_⟩
    intro hfresh d hd
    have hmem : d ∈ b.docs := by
      have : (get_all_files
          ({ b with
              blobs := b.blobs ++ [("uploads/" ++ (ts ++ "_" ++ uf.name), uf.content)]
              log := b.log ++
                [Event.blobPut ("uploads/" ++ (ts ++ "_" ++ uf.name)),
                 Event.makePublic ("uploads/" ++ (ts ++ "_" ++ uf.name)),
                 Event.publicUrl ("uploads/" ++ (ts ++ "_" ++ uf.name)),
                 Event.catalogInsert b.nextId] } : Backend)).2 = sortDesc b.docs := by
        simp [get_all_files, hl]
      rw [this] at hd
      exact mem_sortDesc.mp hd
    exact hfresh d hmem

/-- C2 witness: on a clean backend whose Firestore insert is broken, a
5-byte upload fails, the blob is written, and the listing stays free of the
blob's path. -/
theorem upload_blob_precedes_insert_clean_abort_witness :
    (upload_file ufA "20240101_120000" 7 { cleanBackend with insertFails := true }).2.success
        = false ∧
    ("uploads/" ++ ("20240101_120000" ++ "_" ++ ufA.name), ufA.content) ∈
      (upload_file ufA "20240101_120000" 7 { cleanBackend with insertFails := true }).1.blobs ∧
    ((∀ d ∈ ({ cleanBackend with insertFails := true } : Backend).docs,
        d.2.storage_path ≠ "uploads/" ++ ("20240101_120000" ++ "_" ++ ufA.name)) →
      ∀ d ∈ (get_all_files
          (upload_file ufA "20240101_120000" 7
            { cleanBackend with insertFails := true }).1).2,
        d.2.storage_path ≠ "uploads/" ++ ("20240101_120000" ++ "_" ++ ufA.name)) :=
  (upload_blob_precedes_insert_clean_abort ufA "20240101_120000" 7
    { cleanBackend with insertFails := true }).2.2 rfl rfl rfl rfl rfl (by decide)

/-- C4: when the blob deletion fails — by injected fault or because no blob
exists at the given path — `delete_file` returns a failure result, the
document collection is untouched, and every record previously in the
catalog still appears in a subsequent listing. -/
theorem delete_blob_failure_keeps_record (id : Nat) (sp : String) (b : Backend)
    (h : b.blobDeleteFails = true ∨ b.blobs.lookup sp = none) :
    (delete_file id sp b).2.success = false ∧
    (delete_file id sp b).1.docs = b.docs ∧
    (b.listFails = false →
      ∀ d ∈ b.docs, d ∈ (get_all_files (delete_file id sp b).1).2) := by
  have hcond : (b.blobDeleteFails || (b.blobs.lookup sp).isNone) = true := by
    rcases h with h | h <;> simp [h]
  have heq : delete_file id sp b =
      ({ b with log := b.log ++ [Event.blobDelete sp] }, .err "blob delete failed") := by
    simp [delete_file, blobDeleteOp, hcond]
  rw [heq]
  refine ⟨rfl, rfl, ?_⟩
  intro hl d hd
  have : (get_all_files ({ b with log := b.log ++ [Event.blobDelete sp] } : Backend)).2 =
      sortDesc b.docs := by
    simp [get_all_files, hl]
  rw [this]
  exact mem_sortDesc.mpr hd

/-- C4 witness: deleting a nonexistent storage path from a backend holding
one record fails and leaves the record visible in the listing. -/
theorem delete_blob_failure_keeps_record_witness :
    (delete_file 0 "uploads/ghost.txt" { cleanBackend with docs := [(0, mdA)] }).2.success
        = false ∧
    (delete_file 0 "uploads/ghost.txt" { cleanBackend with docs := [(0, mdA)] }).1.docs
        = ({ cleanBackend with docs := [(0, mdA)] } : Backend).docs ∧
    (0, mdA) ∈ (get_all_files
      (delete_file 0 "uploads/ghost.txt" { cleanBackend with docs := [(0, mdA)] }).1).2 := by
  have h := delete_blob_failure_keeps_record 0 "uploads/ghost.txt"
    { cleanBackend with docs := [(0, mdA)] } (Or.inr rfl)
  exact ⟨h.1, h.2.1, h.2.2 rfl (0, mdA) (by simp [cleanBackend])⟩

/-- C5: the stats are exactly the fold of the listing — count, sum of
`size_bytes` with absent read as 0, and the 2-place rounding of
`total_size_bytes / 1048576` — and an empty listing (in particular a failed
backend) gives all-zero stats. -/
theorem stats_eq_fold (b : Backend) :
    (get_storage_stats b).2.total_files = (get_all_files b).2.length ∧
    (get_storage_stats b).2.total_size_bytes =
      ((get_all_files b).2.map (fun f => f.2.size_bytes.getD 0)).sum ∧
    (get_storage_stats b).2.total_size_mb =
      round2 (((get_storage_stats b).2.total_size_bytes : ℚ) / (1024 * 1024)) ∧
    ((get_all_files b).2 = [] →
      (get_storage_stats b).2 = ⟨0, 0, 0⟩) := by
  refine ⟨rfl, rfl, rfl, ?_⟩
  intro h
  simp only [get_storage_stats, h]
  norm_num [round2, roundHalfEven]

/-- C5 witness: a backend whose listing fails reports zero files, zero
bytes and zero megabytes. -/
theorem stats_eq_fold_witness :
    (get_storage_stats failingListBackend).2 = ⟨0, 0, 0⟩ :=
  (stats_eq_fold failingListBackend).2.2.2 rfl

/-- C8: every successful upload derives its record fields as specified:
`stored_name` is the timestamp string, an underscore, then the original
name; `storage_path` prefixes it with `uploads/`; `size_mb` is the 2-place
rounding of `size_bytes / 1048576`; and `file_extension` is the final
dot-segment of the original name per `os.path.splitext`. -/
theorem upload_metadata_fields (uf : UploadedFile) (ts : String) (now : Nat)
    (b : Backend) (md : StoredRecord) (id : Nat)
    (h : (upload_file uf ts now b).2 = .ok md id) :
    md.stored_name = ts ++ "_" ++ uf.name ∧
    md.storage_path = "uploads/" ++ md.stored_name ∧
    md.size_mb = round2 ((md.size_bytes.getD 0 : ℚ) / (1024 * 1024)) ∧
    md.file_extension = (splitext uf.name).2 := by
  obtain ⟨hmd, -⟩ := upload_ok_inv uf ts now b md id h
  subst hmd
  exact ⟨rfl, rfl, rfl, rfl⟩

/-- C8 witness: Scenario A — uploading 5 bytes as `a.txt` yields
`stored_name = "20240101_120000_a.txt"`, the `uploads/` path, `size_mb = 0`
and `file_extension = ".txt"`. -/
theorem upload_metadata_fields_witness :
    (mdA.stored_name = "20240101_120000" ++ "_" ++ ufA.name ∧
     mdA.storage_path = "uploads/" ++ mdA.stored_name ∧
     mdA.size_mb = round2 ((mdA.size_bytes.getD 0 : ℚ) / (1024 * 1024)) ∧
     mdA.file_extension = (splitext ufA.name).2) ∧
    mdA.stored_name = "20240101_120000_a.txt" ∧
    mdA.size_mb = 0 ∧ mdA.file_extension = ".txt" := by
  refine ⟨upload_metadata_fields ufA "20240101_120000" 7 cleanBackend mdA 0 rfl,
    rfl, ?_, rfl⟩
  show round2 ((ufA.size : ℚ) / (1024 * 1024)) = 0
  have hsz : (ufA.size : ℚ) = 5 := by simp [ufA]
  rw [hsz]
  have h0 : (5 : ℚ) / (1024 * 1024) * 100 =
      ((500 : ℕ) : ℚ) / ((1048576 : ℕ) : ℚ) := by
    push_cast
    norm_num
  have h1 : ⌊(5 : ℚ) / (1024 * 1024) * 100⌋ = 0 := by
    rw [h0, Rat.floor_natCast_div_natCast]
    norm_num
  simp only [round2, roundHalfEven, h1]
  norm_num

/-- C6: after any sequence of successful uploads with strictly increasing
`uploaded_at` clocks into an empty catalog, the listing returns exactly the
created records in reverse chronological order. -/
theorem list_reverse_chronological (us : List (UploadedFile × String × Nat))
    (b : Backend) (hd0 : b.docs = []) (hf : noUploadFaults b)
    (hl : b.listFails = false)
    (hs : ∀ u ∈ us, u.1.size ≤ MAX_FILE_SIZE_BYTES)
    (hmono : (us.map (fun u => u.2.2)).Pairwise (· < ·)) :
    (get_all_files (uploadMany us b)).2 =
      (expectedDocs b.urlPrefix us b.nextId).reverse := by
  obtain ⟨hdocs, hlist, -⟩ := uploadMany_docs us b hf hs
  rw [hd0] at hdocs
  simp only [List.nil_append] at hdocs
  have hlf : (uploadMany us b).listFails = false := by rw [hlist, hl]
  have hlisting : (get_all_files (uploadMany us b)).2 =
      sortDesc (uploadMany us b).docs := by
    simp [get_all_files, hlf]
  rw [hlisting, hdocs]
  apply sortDesc_eq_reverse
  have hmap := expectedDocs_uploaded_at b.urlPrefix us b.nextId
  rw [← hmap] at hmono
  exact List.pairwise_map.mp hmono

/-- A 3-byte text file for the multi-upload scenario. -/
def ufB : UploadedFile :=
  { name := "b.txt", size := 3, content := [1, 2, 3], type := none }

/-- A 2-byte text file for the multi-upload scenario. -/
def ufC : UploadedFile :=
  { name := "c.txt", size := 2, content := [1, 2], type := some "text/plain" }

/-- Scenario C: three uploads at clocks 1 < 2 < 3. -/
def usThree : List (UploadedFile × String × Nat) :=
  [(ufA, "20240101_120000", 1), (ufB, "20240102_120000", 2), (ufC, "20240103_120000", 3)]

/-- C6 witness: three uploads at clocks 1 < 2 < 3 list in order 3, 2, 1. -/
theorem list_reverse_chronological_witness :
    (get_all_files (uploadMany usThree cleanBackend)).2 =
      (expectedDocs cleanBackend.urlPrefix usThree cleanBackend.nextId).reverse :=
  list_reverse_chronological usThree cleanBackend rfl (by decide) rfl
    (by decide) (by decide)

/-- C7: on a backend error during listing, `get_all_files` returns the
empty list — the very output an empty catalog with a healthy backend
produces, so the two cases are indistinguishable to the caller. -/
theorem list_swallows_backend_error (b : Backend) (h : b.listFails = true) :
    (get_all_files b).2 = [] ∧
    (get_all_files b).2 =
      (get_all_files { b with docs := [], listFails := false }).2 := by
  constructor
  · simp [get_all_files, h]
  · simp [get_all_files, h, sortDesc]

/-- C7 witness: a failing listing backend returns the empty list. -/
theorem list_swallows_backend_error_witness :
    (get_all_files failingListBackend).2 = [] ∧
    (get_all_files failingListBackend).2 =
      (get_all_files { failingListBackend with docs := [], listFails := false }).2 :=
  list_swallows_backend_error failingListBackend rfl

/-- C9: `initialize_firebase` raises the configuration `ValueError` when
either required environment value is absent (and not yet initialized), and
once a call has returned successfully every subsequent call — under any
environment — returns immediately with the state unchanged. -/
theorem initialize_firebase_config_and_idempotent (env : FbEnv) (st : FbState) :
    (st.initialized = false →
      env.cred_path = none ∨ env.storage_bucket = none →
      initialize_firebase env st = (st, .raised missingConfigMsg)) ∧
    (st.initialized = true → initialize_firebase env st = (st, .ok)) ∧
    ((initialize_firebase env st).2 = .ok → ∀ env2 : FbEnv,
      initialize_firebase env2 (initialize_firebase env st).1 =
        ((initialize_firebase env st).1, .ok)) := by
  refine ⟨?_, ?_, ?_⟩
  · intro h0 habs
    have hff : (falsyEnv env.cred_path || falsyEnv env.storage_bucket) = true := by
      rcases habs with h | h <;> simp [h, falsyEnv]
    simp [initialize_firebase, h0, hff]
  · intro h1
    simp [initialize_firebase, h1]
  · intro hok env2
    cases hinit : st.initialized
    · by_cases hmiss : (falsyEnv env.cred_path || falsyEnv env.storage_bucket) = true
      · simp [initialize_firebase, hinit, hmiss] at hok
      · have hmiss' : (falsyEnv env.cred_path || falsyEnv env.storage_bucket) = false := by
          simpa using hmiss
        cases hcert : env.certificateFails
        · cases happ : env.initAppFails
          · have hres : initialize_firebase env st =
                ({ initialized := true, appInits := st.appInits + 1 }, .ok) := by
              simp [initialize_firebase, hinit, hmiss', hcert, happ]
            rw [hres]
            simp [initialize_firebase]
          · simp [initialize_firebase, hinit, hmiss', hcert, happ] at hok
        · simp [initialize_firebase, hinit, hmiss', hcert] at hok
    · simp [initialize_firebase, hinit]

/-- C9 witness: a missing credentials path raises the configuration error,
and a later call on an initialized state is a no-op. -/
theorem initialize_firebase_config_and_idempotent_witness :
    initialize_firebase ⟨none, some "bucket", false, false⟩ ⟨false, 0⟩ =
      (⟨false, 0⟩, .raised missingConfigMsg) ∧
    initialize_firebase ⟨some "creds.json", some "bucket", false, false⟩ ⟨true, 1⟩ =
      (⟨true, 1⟩, .ok) :=
  ⟨(initialize_firebase_config_and_idempotent
      ⟨none, some "bucket", false, false⟩ ⟨false, 0⟩).1 rfl (Or.inl rfl),
   (initialize_firebase_config_and_idempotent
      ⟨some "creds.json", some "bucket", false, false⟩ ⟨true, 1⟩).2.1 rfl⟩

end MiniCloud
